import Mathlib

/-!
Verification of bin/all-python.py: version parsing and ordering, version matchers,
section printers with compaction, the per-run environment handling, and the main
orchestration flow, embedded as pure Lean functions.
-/

set_option maxHeartbeats 1000000

namespace AllPython

/-- Whitespace characters stripped by Python str.strip() and int() (ASCII fragment;
non-ASCII Unicode whitespace is outside the modelled inputs). -/
def isPySpace (c : Char) : Bool :=
  c == ' ' || c == '\t' || c == '\n' || c == '\r' || c == '\x0b' || c == '\x0c'

/-- Strip Python whitespace from both ends of a character list. -/
def stripList (cs : List Char) : List Char :=
  ((cs.dropWhile isPySpace).reverse.dropWhile isPySpace).reverse

/-- Models Python str.strip() with no argument. -/
def pyStrip (s : String) : String := ⟨stripList s.data⟩

def digitVal (c : Char) : Nat := c.toNat - 48

/-- Continuation of a digit run in a Python int literal: digits, with single
underscores allowed only between digits. -/
def digitsVal : List Char → Nat → Option Nat
  | [], acc => some acc
  | '_' :: c :: rest, acc =>
    if c.isDigit then digitsVal rest (acc * 10 + digitVal c) else none
  | ['_'], _ => none
  | c :: rest, acc =>
    if c.isDigit then digitsVal rest (acc * 10 + digitVal c) else none

/-- A nonempty digit run (must start with a digit, not an underscore). -/
def digitsNE : List Char → Option Nat
  | [] => none
  | c :: rest => if c.isDigit then digitsVal rest (digitVal c) else none

/-- Models Python int(s) on a str argument: optional surrounding whitespace, optional
sign, then a nonempty digit run with optional single underscores between digits.
Non-ASCII decimal digits are outside the modelled inputs. Returns none where
int() raises ValueError. -/
def pyInt? (s : String) : Option Int :=
  match stripList s.data with
  | '+' :: rest => (digitsNE rest).map (fun n => (n : Int))
  | '-' :: rest => (digitsNE rest).map (fun n => -(n : Int))
  | rest => (digitsNE rest).map (fun n => (n : Int))

/-- Models Python str.split(sep) for a one-character separator: splits at every
occurrence, keeping empty segments, and yields one (empty) segment for the empty
string. -/
def splitChar (sep : Char) : List Char → List (List Char)
  | [] => [[]]
  | c :: rest =>
    if c == sep then [] :: splitChar sep rest
    else
      match splitChar sep rest with
      | seg :: segs => (c :: seg) :: segs
      | [] => [[c]]

/-- Models one step of Version._parse on a dot-separated segment: try int(c) first;
otherwise re.fullmatch(r'(\d*)(.*)', c) splits a maximal leading ASCII-digit run
from the rest, with an empty digit run contributing 0. The fullmatch returns None
when the rest contains a newline (regex '.' does not match a newline), and the
subsequent .group call then raises AttributeError, modelled as none. -/
def parseSegment (seg : List Char) : Option (Int × String) :=
  match pyInt? ⟨seg⟩ with
  | some n => some (n, "")
  | none =>
    let ds := seg.takeWhile Char.isDigit
    let rest := seg.dropWhile Char.isDigit
    if rest.contains '\n' then none
    else some (((ds.foldl (fun acc c => acc * 10 + digitVal c) 0 : Nat) : Int), ⟨rest⟩)

/-- Models the Version class: the originally supplied string plus the parsed
component tuple. -/
structure Version where
  version : String
  components : List (Int × String)
deriving DecidableEq, Repr

/-- Consuming the Version._parse generator: parse the segments in order, an
exception at any segment escaping the whole construction. -/
def parseSegs : List (List Char) → Option (List (Int × String))
  | [] => some []
  | s :: rest =>
    match parseSegment s, parseSegs rest with
    | some p, some ps => some (p :: ps)
    | _, _ => none

/-- Models Version.__init__ (split on '.', parse every segment); none models an
uncaught exception escaping the constructor. -/
def mkVersion? (s : String) : Option Version :=
  match parseSegs (splitChar '.' s.data) with
  | some comps => some ⟨s, comps⟩
  | none => none

/-- Models Version.__str__, which returns the originally supplied string. -/
def vstr (v : Version) : String := v.version

/-- Python < on two characters: comparison of code points. -/
def charLtB (a b : Char) : Bool := decide (a.toNat < b.toNat)

/-- The sequence comparison Python uses for both str < and tuple <: the first
pair of unequal elements decides, and with one sequence a strict prefix of
the other the shorter is smaller. -/
def pyLexLt (eqB ltB : α → α → Bool) : List α → List α → Bool
  | [], [] => false
  | [], _ :: _ => true
  | _ :: _, [] => false
  | a :: as, b :: bs => if eqB a b then pyLexLt eqB ltB as bs else ltB a b

/-- The sequence equality Python uses for tuple ==: same length, elementwise
equal. -/
def pyLexEq (eqB : α → α → Bool) : List α → List α → Bool
  | [], [] => true
  | [], _ :: _ => false
  | _ :: _, [] => false
  | a :: as, b :: bs => eqB a b && pyLexEq eqB as bs

/-- Python < on two strings (as character lists). -/
def listLtB (a b : List Char) : Bool := pyLexLt (fun c d => c == d) charLtB a b

/-- Python < on two strings. -/
def strLtB (a b : String) : Bool := listLtB a.data b.data

/-- Python == on one (int, str) component pair. -/
def pairEqB (a b : Int × String) : Bool := a.1 == b.1 && a.2 == b.2

/-- Python < on one (int, str) component pair (lexicographic: numeric first,
then string comparison by code point). -/
def pairLt (a b : Int × String) : Bool :=
  decide (a.1 < b.1) || (a.1 == b.1 && strLtB a.2 b.2)

/-- Python < on component tuples: first differing pair decides; a strict prefix
is smaller. -/
def compLt (a b : List (Int × String)) : Bool := pyLexLt pairEqB pairLt a b

/-- Python == on component tuples: same length, pairwise equal. -/
def compEqB (a b : List (Int × String)) : Bool := pyLexEq pairEqB a b

/-- Models Version.__lt__. -/
def vlt (a b : Version) : Bool := compLt a.components b.components

/-- Models Version.__eq__. -/
def veq (a b : Version) : Bool := compEqB a.components b.components

/-- Models Version.__le__ as filled in by functools.total_ordering from __lt__ and
__eq__: a <= b iff a < b or a == b. -/
def vle (a b : Version) : Bool := vlt a b || veq a b

/-- Models MinVersionMatcher.match: self.version <= ver. -/
def minMatch (lo v : Version) : Bool := vle lo v

/-- Models MaxVersionMatcher.match: ver < self.version. -/
def maxMatch (hi v : Version) : Bool := vlt v hi

/-- A token of the regular expression produced by fnmatch.translate: a literal
character, '?' (exactly one character), or '*' (any sequence). With the (?s)
flag that translate emits, '.' also matches newlines, so 'one' and 'many'
match arbitrary characters. Bracket character classes never occur in the
patterns this program builds from 'x' replacement and are outside the model. -/
inductive GlobTok where
  | lit (c : Char)
  | one
  | many
deriving DecidableEq, Repr

/-- Models fnmatch.translate on the glob fragment used here: '?' and '*' become
wildcards, every other character is matched literally (translate escapes it). -/
def translateGlob : List Char → List GlobTok
  | [] => []
  | '?' :: rest => .one :: translateGlob rest
  | '*' :: rest => .many :: translateGlob rest
  | c :: rest => .lit c :: translateGlob rest

/-- Whether the predicate holds of some suffix of the list (the list itself
included). Used to interpret '*': the remaining pattern must match some
suffix of the remaining input. -/
def anySuffix (f : List Char → Bool) : List Char → Bool
  | [] => f []
  | c :: cs => f (c :: cs) || anySuffix f cs

/-- Models re.fullmatch of the translated pattern against a string: a literal
consumes exactly itself, '?' consumes exactly one character, and '*' lets the
rest of the pattern match any suffix of the rest of the input. -/
def globMatch : List GlobTok → List Char → Bool
  | [] => fun s => s.isEmpty
  | .lit c :: ts => fun s =>
    match s with
    | [] => false
    | d :: ds => c == d && globMatch ts ds
  | .one :: ts => fun s =>
    match s with
    | [] => false
    | _ :: ds => globMatch ts ds
  | .many :: ts => fun s => anySuffix (globMatch ts) s

/-- Models str.replace('x', '?*') on the pattern. -/
def replaceX : List Char → List Char
  | [] => []
  | 'x' :: rest => '?' :: '*' :: replaceX rest
  | c :: rest => c :: replaceX rest

/-- Models MultiVersionMatcher._make_matcher applied to str(ver): split the
pattern on commas (the comma/dot guard in the source is extensionally the same
as always splitting), strip each part, replace 'x' by '?*', translate, and
accept when any resulting pattern fullmatches the version string. -/
def multiMatch (pat : String) (verStr : String) : Bool :=
  let pats :=
    if pat.data.contains ',' || pat.data.contains '.' then
      (splitChar ',' pat.data).map stripList
    else
      [stripList pat.data]
  pats.any (fun p => globMatch (translateGlob (replaceX p)) verStr.data)

/-- State of a SectionPrinter: whether a section has already been printed, so
that the next one is preceded by a blank line. -/
structure SPState where
  needGap : Bool
deriving DecidableEq, Repr

/-- Models SectionPrinter.print: returns the text written to the printer's file
and the updated state. Empty messages are suppressed when suppress_empty_msg
holds; a message not ending in a newline gets one appended by print(). -/
def spPrint (st : SPState) (suppressEmpty : Bool) (header msg : String) :
    String × SPState :=
  if suppressEmpty && msg == "" then ("", st)
  else
    let endStr := if msg.data.getLast? == some '\n' then "" else "\n"
    let gap := if st.needGap then "\n" else ""
    (gap ++ "=====> " ++ header ++ " <=====" ++ "\n" ++ msg ++ endStr, ⟨true⟩)

/-- State of a CompactSectionPrinter: the inner SectionPrinter state plus the
pending section (first_header, last_header, previous_msg); no pending section
iff first_header is None in the source. -/
structure CSPState where
  sp : SPState
  pending : Option (String × Option String × String)
deriving DecidableEq, Repr

/-- The initial CompactSectionPrinter state. -/
def cspInit : CSPState := ⟨⟨false⟩, none⟩

/-- Header of the pending section, as computed by CompactSectionPrinter._print:
a range header when last_header is truthy (present and nonempty). -/
def cspHeaderOf (first : String) (last : Option String) : String :=
  match last with
  | some lh => if lh == "" then first else first ++ " ~ " ++ lh
  | none => first

/-- Models CompactSectionPrinter._print on a pending section: emit it through
the inner printer (suppress_empty_msg=False). Returns the printed text, the
emitted (header, body) pair, and the inner printer state. -/
def cspFlush (st : CSPState) : String × Option (String × String) × SPState :=
  match st.pending with
  | none => ("", none, st.sp)
  | some (f, l, m) =>
    let h := cspHeaderOf f l
    let (out, sp') := spPrint st.sp false h m
    (out, some (h, m), sp')

/-- Models CompactSectionPrinter.print: if there is no pending section or the
incoming text differs from the pending one, flush and start a new single-label
pending section; otherwise just extend the range. -/
def cspPrint (st : CSPState) (header msg : String) :
    String × Option (String × String) × CSPState :=
  match st.pending with
  | none => ("", none, ⟨st.sp, some (header, none, msg)⟩)
  | some (f, _, m) =>
    if m == msg then ("", none, ⟨st.sp, some (f, some header, m)⟩)
    else
      let (out, emitted, sp') := cspFlush st
      (out, emitted, ⟨sp', some (header, none, msg)⟩)

/-- Models CompactSectionPrinter.close: flush any pending section and clear. -/
def cspClose (st : CSPState) : String × Option (String × String) × CSPState :=
  let (out, emitted, sp') := cspFlush st
  (out, emitted, ⟨sp', none⟩)

/-- Feed (header, msg) pairs to a CompactSectionPrinter in the given state and
close it, returning all printed text together with the emitted sections in
order. -/
def cspRunFrom (st : CSPState) : List (String × String) → String × List (String × String)
  | [] =>
    let (out, emitted, _) := cspClose st
    (out, emitted.toList)
  | (h, m) :: rest =>
    let (out, emitted, st') := cspPrint st h m
    let (outR, secs) := cspRunFrom st' rest
    (out ++ outR, emitted.toList ++ secs)

/-- Feed (header, msg) pairs to a fresh CompactSectionPrinter and close it. -/
def cspRun (pairs : List (String × String)) : String × List (String × String) :=
  cspRunFrom cspInit pairs

/-- A process environment, modelled as the ordered key-value entries of a
Python dict (keys unique, insertion-ordered). -/
abbrev Env := List (String × String)

/-- Python dict lookup with a default: new_env.get(k, dflt). -/
def envGet (e : Env) (k dflt : String) : String :=
  match e.find? (fun p => p.1 == k) with
  | some p => p.2
  | none => dflt

/-- Python dict assignment new_env[k] = v: replace in place when the key is
present, append otherwise. -/
def envSet (e : Env) (k v : String) : Env :=
  if e.any (fun p => p.1 == k) then
    e.map (fun p => if p.1 == k then (k, v) else p)
  else e ++ [(k, v)]

/-- Models the PythonInterpreter dataclass. -/
structure PythonInterpreter where
  binaryPath : String
  binDir : String
  version : Version
deriving DecidableEq, Repr

/-- The environment ShellCommand.run and PythonCommand.run pass to their
subprocess: a copy of the current process environment with the interpreter's
bin directory prepended to PATH when an interpreter is supplied (ShellCommand
with py=None passes the plain copy). -/
def subprocEnv (globalEnv : Env) (py : Option PythonInterpreter) : Env :=
  match py with
  | none => globalEnv
  | some p => envSet globalEnv "PATH" (p.binDir ++ ":" ++ envGet globalEnv "PATH" "")

/-- One command run's effect on environments, translated from
ShellCommand.run: the first component is the environment handed to the
subprocess, the second is the process-global environment after the call.
The source builds new_env = dict-splat of os.environ and never assigns
back to os.environ, so the global environment passes through unchanged. -/
def runEnvEffect (globalEnv : Env) (py : Option PythonInterpreter) : Env × Env :=
  (subprocEnv globalEnv py, globalEnv)

/-- Environments over a whole sequence of per-interpreter runs: each run sees
the global environment left by the previous one and yields a subprocess
environment; returns all subprocess environments plus the final global one. -/
def runSeqEnvs (globalEnv : Env) : List PythonInterpreter → List Env × Env
  | [] => ([], globalEnv)
  | py :: rest =>
    let (sub, g1) := runEnvEffect globalEnv (some py)
    let (subs, g2) := runSeqEnvs g1 rest
    (sub :: subs, g2)

/-- The parsed min-version (-s) or max-version (-e) argument: argparse is
declared with type=Version, so a supplied flag yields a bare Version object,
while the default is a NullVersionMatcher. -/
inductive BoundArg where
  | null
  | ver (v : Version)
deriving DecidableEq, Repr

/-- The parsed -v version-pattern argument. -/
inductive VersionArg where
  | null
  | multi (pat : String)
deriving DecidableEq, Repr

/-- Calling .match on the parsed -s or -e argument: NullVersionMatcher matches
everything; a bare Version object has no match attribute, so the call raises
AttributeError, modelled as none. -/
def boundMatch? : BoundArg → Version → Option Bool
  | .null, _ => some true
  | .ver _, _ => none

/-- Calling .match on the parsed -v argument. -/
def versionArgMatch : VersionArg → Version → Bool
  | .null, _ => true
  | .multi pat, v => multiMatch pat (vstr v)

/-- The version_matcher closure in main: the and-chain of the min, max and
multi matchers, with Python short-circuiting; none propagates the
AttributeError raised by a bare Version bound. -/
def combinedMatch? (minA maxA : BoundArg) (verA : VersionArg) (v : Version) :
    Option Bool :=
  match boundMatch? minA v with
  | none => none
  | some false => some false
  | some true =>
    match boundMatch? maxA v with
    | none => none
    | some false => some false
    | some true => some (versionArgMatch verA v)

/-- Models PythonRepository.find over an already-discovered interpreter list:
keep the interpreters accepted by the matcher; none models the AttributeError
escaping while the generator is consumed. -/
def findMatching? (minA maxA : BoundArg) (verA : VersionArg) :
    List PythonInterpreter → Option (List PythonInterpreter)
  | [] => some []
  | py :: rest =>
    match combinedMatch? minA maxA verA py.version with
    | none => none
    | some m =>
      match findMatching? minA maxA verA rest with
      | none => none
      | some tl => some (if m then py :: tl else tl)

/-- Insert an interpreter into a version-sorted list, after every element
whose version is strictly smaller (keeping equal versions in input order). -/
def insertByVersion (a : PythonInterpreter) :
    List PythonInterpreter → List PythonInterpreter
  | [] => [a]
  | b :: bs =>
    if vlt b.version a.version then b :: insertByVersion a bs
    else a :: b :: bs

/-- Models sorted(interpreters, key=lambda py: py.version): a stable ascending
sort by version. -/
def sortByVersion : List PythonInterpreter → List PythonInterpreter
  | [] => []
  | a :: as => insertByVersion a (sortByVersion as)

/-- Which command is run for each interpreter. -/
inductive CmdKind where
  | shell (cmd : String)
  | python (args : List String)
deriving DecidableEq, Repr

/-- The result of one subprocess invocation: captured combined stdout+stderr
text on success, or a CalledProcessError with a positive exit status and the
captured text (death by a signal, a negative returncode, is outside the
modelled outcomes). -/
inductive Outcome where
  | ok (stdout : String)
  | err (returncode : Nat) (stdout : String)
deriving DecidableEq, Repr

/-- The hexadecimal digit characters used by repr escapes. -/
def hexDigit (n : Nat) : Char :=
  if n < 10 then Char.ofNat (48 + n) else Char.ofNat (87 + n)

/-- The apostrophe character. -/
def quoteChar : Char := Char.ofNat 39

/-- The double-quote character. -/
def dquoteChar : Char := Char.ofNat 34

/-- Python repr escaping of one character inside a q-quoted string literal
(ASCII fragment: control characters get hex escapes; the Unicode
printability rules of repr are outside the modelled inputs). -/
def pyCharEscape (q c : Char) : List Char :=
  if c == '\\' then ['\\', '\\']
  else if c == q then ['\\', q]
  else if c == '\n' then ['\\', 'n']
  else if c == '\r' then ['\\', 'r']
  else if c == '\t' then ['\\', 't']
  else if c.toNat < 32 || c.toNat == 127 then
    ['\\', 'x', hexDigit (c.toNat / 16), hexDigit (c.toNat % 16)]
  else [c]

/-- Python repr of a string: single-quoted, or double-quoted when the string
contains an apostrophe but no double quote. -/
def pyStrRepr (s : String) : String :=
  let q :=
    if s.data.contains quoteChar && !s.data.contains dquoteChar then dquoteChar
    else quoteChar
  ⟨q :: ((s.data.map (pyCharEscape q)).flatten ++ [q])⟩

/-- Python str of a list of strings, as interpolated by the f-string for
e.cmd when the command is the argument list of PythonCommand. -/
def pyListRepr (l : List String) : String :=
  "[" ++ String.intercalate ", " (l.map pyStrRepr) ++ "]"

/-- Models str.rstrip applied with chars newline. -/
def rstripNL (s : String) : String :=
  ⟨(s.data.reverse.dropWhile (fun c => c == '\n')).reverse⟩

/-- The text of one per-interpreter section: the captured output on success;
on CalledProcessError the except-branch in main formats the rstripped output
plus the exit status and the command string. -/
def sectionTextOf (cmdStr : String) : Outcome → String
  | .ok out => out
  | .err code out =>
    rstripNL out ++ "\n\n" ++ "Command returned non-zero exit status " ++
      toString code ++ "\n" ++ "Command: " ++ cmdStr

/-- Models str(subprocess.CalledProcessError) for a positive exit status. -/
def cpeStr (cmd : String) (code : Nat) : String :=
  "Command \x27" ++ cmd ++ "\x27 returned non-zero exit status " ++
    toString code ++ "."

/-- Standard-error text printed by the CalledProcessError handler in main: the
ERROR line, then the captured output as a section of a fresh stderr
SectionPrinter (suppressed when the output is empty). -/
def hookFailStderr (cmd : String) (code : Nat) (out : String) : String :=
  "ERROR: " ++ cpeStr cmd code ++ "\n" ++ (spPrint ⟨false⟩ true "stdout/stderr" out).1

/-- How the process ends: exit(main()) with main returning 1, 0 or None
(exit(None) gives status 0); replacement by bash through os.execvp; or an
unhandled exception, which prints a traceback (not modelled) and exits 1. -/
inductive MainOutcome where
  | exited (code : Nat)
  | execedBash
  | uncaught (exn : String)
deriving DecidableEq, Repr

/-- The command-line arguments after argparse. -/
structure Args where
  execCmd : Option String
  beforeCmd : Option String
  afterCmd : Option String
  minArg : BoundArg
  maxArg : BoundArg
  verArg : VersionArg
  pythonArgs : List String
deriving DecidableEq, Repr

/-- Everything observable about one run of main: text written to stdout and to
stderr, how the process ended, whether the before/after hooks were invoked,
the interpreters for which a per-interpreter command ran (in order), and the
(label, text) section pairs handed to the CompactSectionPrinter. -/
structure MainResult where
  stdoutText : String
  stderrText : String
  outcome : MainOutcome
  beforeRan : Bool
  afterRan : Bool
  ranInterps : List PythonInterpreter
  sections : List (String × String)
deriving DecidableEq, Repr

/-- A run of n equal-sign characters (the banner rules of the splash text). -/
def eqRun (n : Nat) : String := ⟨List.replicate n (Char.ofNat 61)⟩

/-- The splash message shown for python_args == [bash], after textwrap.dedent
and strip (the braces and backticks of the original text are escaped here). -/
def splashText : String :=
  eqRun 20 ++ "   all-python (shell mode)   " ++ eqRun 20 ++ "\n" ++
  "You can use any linux commands on this shell.  For example, the following \n" ++
  "commands are available.\n" ++
  "\n" ++
  "  apt        - install some software and libraries into this container.\n" ++
  "  all-python - run various versions of python with specified arguments.\n" ++
  "  exit       - exit this shell.\n" ++
  "\n" ++
  "Python interpreters are installed under the /opt/all-python/ directory.\n" ++
  "If you want to specify the version of python interpreter, please append \n" ++
  "/opt/all-python/Python-\x7bversion\x7d/bin/ directory to $PATH.\n" ++
  "\n" ++
  "See \x60all-python --help\x60 for more info.\n" ++
  "Maintainer:  yuuki0xff  (https://github.com/yuuki0xff)\n" ++
  "GitHub:      https://github.com/yuuki0xff/all-python\n" ++
  "Bug Tracker: https://github.com/yuuki0xff/all-python/issues\n" ++
  eqRun 69

/-- The per-interpreter loop in main: run the command for every interpreter in
order, feeding each (version label, section text) pair to the compact
printer. A CalledProcessError is caught inside the loop and rendered into
the section text, so the loop never stops early. Returns the printed text,
the final printer state and the section pairs. -/
def runLoop (oracle : CmdKind → Option PythonInterpreter → Outcome)
    (ck : CmdKind) (cmdStr : String) :
    List PythonInterpreter → CSPState → String × CSPState × List (String × String)
  | [], st => ("", st, [])
  | py :: rest, st =>
    let txt := sectionTextOf cmdStr (oracle ck (some py))
    let (out1, _, st1) := cspPrint st (vstr py.version) txt
    let (outR, st2, secs) := runLoop oracle ck cmdStr rest st1
    (out1 ++ outR, st2, (vstr py.version, txt) :: secs)

/-- The part of main after a successful (or absent) before hook: print the
before section, discover and sort the interpreters, run the loop, close the
compact printer, then run the after hook. -/
def mainTail (args : Args) (interps : List PythonInterpreter)
    (oracle : CmdKind → Option PythonInterpreter → Outcome)
    (bout : String) (beforeRan : Bool) : MainResult :=
  let (sec1, sp1) := spPrint ⟨false⟩ true "before" bout
  match findMatching? args.minArg args.maxArg args.verArg interps with
  | none =>
    ⟨sec1, "", .uncaught "AttributeError", beforeRan, false, [], []⟩
  | some selected =>
    let sorted := sortByVersion selected
    let ck : CmdKind :=
      match args.execCmd with
      | some c => .shell c
      | none => .python args.pythonArgs
    let cmdStr :=
      match args.execCmd with
      | some c => c
      | none => pyListRepr ("python" :: args.pythonArgs)
    let (loopOut, stEnd, secs) := runLoop oracle ck cmdStr sorted cspInit
    let (closeOut, _, _) := cspClose stEnd
    let stdout1 := sec1 ++ loopOut ++ closeOut
    match args.afterCmd with
    | some c =>
      match oracle (.shell c) none with
      | .err code out =>
        ⟨stdout1, hookFailStderr c code out, .exited 0, beforeRan, true, sorted, secs⟩
      | .ok aout =>
        let (sec2, _) := spPrint sp1 true "after" aout
        ⟨stdout1 ++ sec2, "", .exited 0, beforeRan, true, sorted, secs⟩
    | none =>
      let (sec2, _) := spPrint sp1 true "after" ""
      ⟨stdout1 ++ sec2, "", .exited 0, beforeRan, false, sorted, secs⟩

/-- Models the whole main flow around a given already-discovered interpreter
list and an oracle giving each subprocess invocation's result: the
mutual-exclusion checks on --exec and python_args, the bash splash branch,
the before hook (whose CalledProcessError propagates to the handler that
prints to stderr and falls through, so main returns None and the process
exits 0), the per-interpreter loop, and the after hook. -/
def mainModel (args : Args) (interps : List PythonInterpreter)
    (oracle : CmdKind → Option PythonInterpreter → Outcome) : MainResult :=
  if args.execCmd.isSome && !args.pythonArgs.isEmpty then
    ⟨"", "ERROR: --exec and python_args are exclusive\n", .exited 1,
      false, false, [], []⟩
  else if !args.execCmd.isSome && args.pythonArgs.isEmpty then
    ⟨"", "ERROR: must specify one argument of --exec or python_args\n", .exited 1,
      false, false, [], []⟩
  else if args.pythonArgs == ["bash"] then
    ⟨splashText ++ "\n", "", .execedBash, false, false, [], []⟩
  else
    match args.beforeCmd with
    | none => mainTail args interps oracle "" false
    | some c =>
      match oracle (.shell c) none with
      | .err code out =>
        ⟨"", hookFailStderr c code out, .exited 0, true, false, [], []⟩
      | .ok bout => mainTail args interps oracle bout true

/-! ### Order theory for the Python sequence comparison -/

section PyLexOrder

variable {α : Type} {eqB ltB : α → α → Bool}

theorem pyLexLt_irrefl (heq : ∀ a, eqB a a = true) :
    ∀ l, pyLexLt eqB ltB l l = false
  | [] => rfl
  | a :: as => by
    simp only [pyLexLt, heq a, if_true]
    exact pyLexLt_irrefl heq as

theorem pyLexLt_trans (heq : ∀ a b, eqB a b = true ↔ a = b)
    (htr : ∀ a b c, ltB a b = true → ltB b c = true → ltB a c = true)
    (hirr : ∀ a, ltB a a = false) :
    ∀ x y z, pyLexLt eqB ltB x y = true → pyLexLt eqB ltB y z = true →
      pyLexLt eqB ltB x z = true
  | [], [], _, h1, _ => by simp [pyLexLt] at h1
  | [], _ :: _, [], _, h2 => by simp [pyLexLt] at h2
  | [], _ :: _, _ :: _, _, _ => rfl
  | _ :: _, [], _, h1, _ => by simp [pyLexLt] at h1
  | _ :: _, _ :: _, [], _, h2 => by simp [pyLexLt] at h2
  | x :: xs, y :: ys, z :: zs, h1, h2 => by
    simp only [pyLexLt] at h1 h2 ⊢
    by_cases hxy : x = y
    · rw [if_pos ((heq x y).mpr hxy)] at h1
      by_cases hyz : y = z
      · rw [if_pos ((heq y z).mpr hyz)] at h2
        rw [if_pos ((heq x z).mpr (hxy.trans hyz))]
        exact pyLexLt_trans heq htr hirr xs ys zs h1 h2
      · rw [if_neg (fun q => hyz ((heq y z).mp q))] at h2
        rw [if_neg (fun q => hyz (hxy ▸ (heq x z).mp q))]
        exact hxy ▸ h2
    · rw [if_neg (fun q => hxy ((heq x y).mp q))] at h1
      by_cases hyz : y = z
      · rw [if_neg (fun q => hxy ((heq x z).mp q ▸ hyz.symm ▸ rfl))]
        exact hyz ▸ h1
      · rw [if_neg (fun q => hyz ((heq y z).mp q))] at h2
        have hxz : x ≠ z := by
          intro q
          subst q
          exact absurd (htr _ _ _ h1 h2) (by simp [hirr x])
        rw [if_neg (fun q => hxz ((heq x z).mp q))]
        exact htr _ _ _ h1 h2

theorem pyLexLt_asymm (heq : ∀ a b, eqB a b = true ↔ a = b)
    (hasym : ∀ a b, ltB a b = true → ltB b a = false) :
    ∀ x y, pyLexLt eqB ltB x y = true → pyLexLt eqB ltB y x = false
  | [], [], h1 => by simp [pyLexLt] at h1
  | [], _ :: _, _ => rfl
  | _ :: _, [], h1 => by simp [pyLexLt] at h1
  | x :: xs, y :: ys, h1 => by
    simp only [pyLexLt] at h1 ⊢
    by_cases hxy : x = y
    · rw [if_pos ((heq x y).mpr hxy)] at h1
      rw [if_pos ((heq y x).mpr hxy.symm)]
      exact pyLexLt_asymm heq hasym xs ys h1
    · rw [if_neg (fun q => hxy ((heq x y).mp q))] at h1
      rw [if_neg (fun q => hxy (((heq y x).mp q).symm))]
      exact hasym _ _ h1

theorem pyLexLt_connex (heq : ∀ a b, eqB a b = true ↔ a = b)
    (hconn : ∀ a b, a ≠ b → ltB a b = true ∨ ltB b a = true) :
    ∀ x y, x ≠ y → pyLexLt eqB ltB x y = true ∨ pyLexLt eqB ltB y x = true
  | [], [], h => absurd rfl h
  | [], _ :: _, _ => Or.inl rfl
  | _ :: _, [], _ => Or.inr rfl
  | x :: xs, y :: ys, h => by
    simp only [pyLexLt]
    by_cases hxy : x = y
    · subst hxy
      have hs : xs ≠ ys := fun q => h (q ▸ rfl)
      rw [if_pos ((heq x x).mpr rfl), if_pos ((heq x x).mpr rfl)]
      exact pyLexLt_connex heq hconn xs ys hs
    · rw [if_neg (fun q => hxy ((heq x y).mp q)),
        if_neg (fun q => hxy (((heq y x).mp q).symm))]
      exact hconn x y hxy

theorem pyLexEq_iff (heq : ∀ a b, eqB a b = true ↔ a = b) :
    ∀ x y, pyLexEq eqB x y = true ↔ x = y
  | [], [] => by simp [pyLexEq]
  | [], _ :: _ => by simp [pyLexEq]
  | _ :: _, [] => by simp [pyLexEq]
  | x :: xs, y :: ys => by
    simp only [pyLexEq, Bool.and_eq_true, heq x y, pyLexEq_iff heq xs ys,
      List.cons.injEq]

end PyLexOrder

/-! ### The character, string, pair and component orders -/

theorem char_toNat_inj {a b : Char} (h : a.toNat = b.toNat) : a = b :=
  Char.eq_of_val_eq (UInt32.ext h)

theorem charLtB_irrefl (a : Char) : charLtB a a = false := by simp [charLtB]

theorem charLtB_trans {a b c : Char} (h1 : charLtB a b = true)
    (h2 : charLtB b c = true) : charLtB a c = true := by
  simp only [charLtB, decide_eq_true_eq] at h1 h2 ⊢
  exact Nat.lt_trans h1 h2

theorem charLtB_asymm {a b : Char} (h : charLtB a b = true) :
    charLtB b a = false := by
  simp only [charLtB, decide_eq_true_eq, decide_eq_false_iff_not] at h ⊢
  omega

theorem charLtB_connex {a b : Char} (h : a ≠ b) :
    charLtB a b = true ∨ charLtB b a = true := by
  rcases Nat.lt_trichotomy a.toNat b.toNat with hlt | heqn | hgt
  · exact Or.inl (by simpa [charLtB] using hlt)
  · exact absurd (char_toNat_inj heqn) h
  · exact Or.inr (by simpa [charLtB] using hgt)

theorem charEqB_iff (a b : Char) : (a == b) = true ↔ a = b := beq_iff_eq

theorem listLtB_irrefl (l : List Char) : listLtB l l = false :=
  @pyLexLt_irrefl Char (fun c d => c == d) charLtB (fun a => beq_self_eq_true a) l

theorem listLtB_trans {x y z : List Char} (h1 : listLtB x y = true)
    (h2 : listLtB y z = true) : listLtB x z = true :=
  @pyLexLt_trans Char (fun c d => c == d) charLtB charEqB_iff
    (fun _ _ _ h1 h2 => charLtB_trans h1 h2) charLtB_irrefl x y z h1 h2

theorem listLtB_asymm {x y : List Char} (h : listLtB x y = true) :
    listLtB y x = false :=
  @pyLexLt_asymm Char (fun c d => c == d) charLtB charEqB_iff
    (fun _ _ h => charLtB_asymm h) x y h

theorem listLtB_connex {x y : List Char} (h : x ≠ y) :
    listLtB x y = true ∨ listLtB y x = true :=
  @pyLexLt_connex Char (fun c d => c == d) charLtB charEqB_iff
    (fun _ _ h => charLtB_connex h) x y h

theorem string_data_inj {a b : String} (h : a.data = b.data) : a = b :=
  String.ext h

theorem strLtB_irrefl (s : String) : strLtB s s = false := listLtB_irrefl s.data

theorem strLtB_trans {x y z : String} (h1 : strLtB x y = true)
    (h2 : strLtB y z = true) : strLtB x z = true := listLtB_trans h1 h2

theorem strLtB_asymm {x y : String} (h : strLtB x y = true) :
    strLtB y x = false := listLtB_asymm h

theorem strLtB_connex {x y : String} (h : x ≠ y) :
    strLtB x y = true ∨ strLtB y x = true :=
  listLtB_connex (fun q => h (string_data_inj q))

theorem pairEqB_iff (a b : Int × String) : pairEqB a b = true ↔ a = b := by
  cases a
  cases b
  simp [pairEqB, Prod.ext_iff]

theorem pairLt_iff (a b : Int × String) :
    pairLt a b = true ↔ a.1 < b.1 ∨ (a.1 = b.1 ∧ strLtB a.2 b.2 = true) := by
  simp [pairLt, Bool.or_eq_true, Bool.and_eq_true, decide_eq_true_eq]

theorem pairLt_irrefl (a : Int × String) : pairLt a a = false := by
  simp [pairLt, strLtB_irrefl]

theorem pairLt_trans {a b c : Int × String} (h1 : pairLt a b = true)
    (h2 : pairLt b c = true) : pairLt a c = true := by
  rw [pairLt_iff] at h1 h2 ⊢
  rcases h1 with h1 | ⟨h1e, h1s⟩
  · rcases h2 with h2 | ⟨h2e, _⟩
    · exact Or.inl (h1.trans h2)
    · exact Or.inl (h2e ▸ h1)
  · rcases h2 with h2 | ⟨h2e, h2s⟩
    · exact Or.inl (h1e ▸ h2)
    · exact Or.inr ⟨h1e.trans h2e, strLtB_trans h1s h2s⟩

theorem pairLt_asymm {a b : Int × String} (h : pairLt a b = true) :
    pairLt b a = false := by
  rw [pairLt_iff] at h
  rw [← Bool.not_eq_true, pairLt_iff]
  rcases h with h | ⟨he, hs⟩
  · rintro (q | ⟨qe, _⟩)
    · omega
    · omega
  · rintro (q | ⟨qe, qs⟩)
    · omega
    · rw [strLtB_asymm hs] at qs
      exact Bool.false_ne_true qs

theorem pairLt_connex {a b : Int × String} (h : a ≠ b) :
    pairLt a b = true ∨ pairLt b a = true := by
  rcases Int.lt_trichotomy a.1 b.1 with hlt | heqn | hgt
  · exact Or.inl ((pairLt_iff a b).mpr (Or.inl hlt))
  · have hs : a.2 ≠ b.2 := by
      intro q
      exact h (Prod.ext heqn q)
    rcases strLtB_connex hs with hc | hc
    · exact Or.inl ((pairLt_iff a b).mpr (Or.inr ⟨heqn, hc⟩))
    · exact Or.inr ((pairLt_iff b a).mpr (Or.inr ⟨heqn.symm, hc⟩))
  · exact Or.inr ((pairLt_iff b a).mpr (Or.inl hgt))

theorem compEqB_iff (x y : List (Int × String)) : compEqB x y = true ↔ x = y :=
  pyLexEq_iff pairEqB_iff x y

theorem compLt_irrefl (x : List (Int × String)) : compLt x x = false :=
  @pyLexLt_irrefl (Int × String) pairEqB pairLt (fun a => (pairEqB_iff a a).mpr rfl) x

theorem compLt_trans {x y z : List (Int × String)} (h1 : compLt x y = true)
    (h2 : compLt y z = true) : compLt x z = true :=
  @pyLexLt_trans (Int × String) pairEqB pairLt pairEqB_iff
    (fun _ _ _ h1 h2 => pairLt_trans h1 h2) pairLt_irrefl x y z h1 h2

theorem compLt_asymm {x y : List (Int × String)} (h : compLt x y = true) :
    compLt y x = false :=
  @pyLexLt_asymm (Int × String) pairEqB pairLt pairEqB_iff
    (fun _ _ h => pairLt_asymm h) x y h

theorem compLt_connex {x y : List (Int × String)} (h : x ≠ y) :
    compLt x y = true ∨ compLt y x = true :=
  @pyLexLt_connex (Int × String) pairEqB pairLt pairEqB_iff
    (fun _ _ h => pairLt_connex h) x y h

/-! ### Version-level order facts -/

theorem veq_iff (a b : Version) : veq a b = true ↔ a.components = b.components :=
  compEqB_iff a.components b.components

theorem vlt_irrefl_comp {a b : Version} (h : a.components = b.components) :
    vlt a b = false := by
  unfold vlt
  rw [h]
  exact compLt_irrefl b.components

theorem vlt_trans {a b c : Version} (h1 : vlt a b = true) (h2 : vlt b c = true) :
    vlt a c = true := compLt_trans h1 h2

theorem vlt_asymm {a b : Version} (h : vlt a b = true) : vlt b a = false :=
  compLt_asymm h

theorem vlt_veq_connex (a b : Version) :
    veq a b = true ∨ vlt a b = true ∨ vlt b a = true := by
  by_cases h : a.components = b.components
  · exact Or.inl ((veq_iff a b).mpr h)
  · exact Or.inr (compLt_connex h)

/-! ### Supporting lemmas for parsing totality and the glob matcher -/

theorem splitChar_subset (sep : Char) :
    ∀ (l : List Char) (seg : List Char), seg ∈ splitChar sep l → ∀ c ∈ seg, c ∈ l
  | [], seg, hseg => by
    simp only [splitChar, List.mem_singleton] at hseg
    subst hseg
    intro c hc
    cases hc
  | x :: rest, seg, hseg => by
    by_cases hx : x == sep
    · rw [splitChar, if_pos hx] at hseg
      rcases List.mem_cons.mp hseg with h | h
      · subst h
        intro c hc
        cases hc
      · intro c hc
        exact List.mem_cons_of_mem x (splitChar_subset sep rest seg h c hc)
    · rw [splitChar, if_neg hx] at hseg
      rcases hrec : splitChar sep rest with _ | ⟨s, ss⟩
      · rw [hrec] at hseg
        simp only [List.mem_singleton] at hseg
        subst hseg
        intro c hc
        rcases List.mem_cons.mp hc with h | h
        · exact h ▸ List.mem_cons_self x rest
        · cases h
      · rw [hrec] at hseg
        rcases List.mem_cons.mp hseg with h | h
        · subst h
          intro c hc
          rcases List.mem_cons.mp hc with h | h
          · exact h ▸ List.mem_cons_self x rest
          · exact List.mem_cons_of_mem x
              (splitChar_subset sep rest s (hrec ▸ List.mem_cons_self s ss) c h)
        · intro c hc
          exact List.mem_cons_of_mem x
            (splitChar_subset sep rest seg (hrec ▸ List.mem_cons_of_mem s h) c hc)

theorem contains_eq_false_of_not_mem {l : List Char} {c : Char} (h : c ∉ l) :
    l.contains c = false := by
  simpa using h

theorem parseSegment_isSome_of_no_newline {seg : List Char}
    (h : ∀ c ∈ seg, c ≠ '\n') : (parseSegment seg).isSome = true := by
  unfold parseSegment
  cases hint : pyInt? ⟨seg⟩ with
  | some n => rfl
  | none =>
    have hnl : '\n' ∉ seg.dropWhile Char.isDigit := by
      intro hmem
      exact h '\n' ((List.dropWhile_sublist Char.isDigit).subset hmem) rfl
    simp only [contains_eq_false_of_not_mem hnl, Bool.false_eq_true, if_false,
      Option.isSome_some]

theorem parseSegs_isSome (segs : List (List Char))
    (h : ∀ seg ∈ segs, (parseSegment seg).isSome = true) :
    (parseSegs segs).isSome = true := by
  induction segs with
  | nil => rfl
  | cons s rest ih =>
    have hs := h s (List.mem_cons_self s rest)
    have hr := ih (fun seg hseg => h seg (List.mem_cons_of_mem s hseg))
    rcases hps : parseSegment s with _ | p
    · rw [hps] at hs
      cases hs
    · rcases hpr : parseSegs rest with _ | ps
      · rw [hpr] at hr
        cases hr
      · simp [parseSegs, hps, hpr]

theorem anySuffix_isEmpty : ∀ l : List Char, anySuffix (fun s : List Char => s.isEmpty) l = true
  | [] => rfl
  | c :: cs => by
    simp only [anySuffix, anySuffix_isEmpty cs, Bool.or_true]

theorem globMatch_1x (cs : List Char) :
    globMatch [.lit '1', .lit '.', .one, .many] cs = true ↔
      ∃ c : Char, ∃ rest : List Char, cs = '1' :: '.' :: c :: rest := by
  match cs with
  | [] => simp [globMatch]
  | [d1] => simp [globMatch]
  | [d1, d2] => simp [globMatch]
  | d1 :: d2 :: d3 :: t =>
    simp only [globMatch, anySuffix_isEmpty, Bool.and_true, Bool.and_eq_true,
      beq_iff_eq]
    constructor
    · rintro ⟨h1, h2⟩
      exact ⟨d3, t, by rw [← h1, ← h2]⟩
    · rintro ⟨c, rest, heq⟩
      injection heq with e1 heq2
      injection heq2 with e2 heq3
      exact ⟨e1.symm, e2.symm⟩

/-! ### The claims -/

/-- C1 counterexample: the claim says both CLI bounds are inclusive, but
MaxVersionMatcher("1.0") rejects Version("1.0") even though that version is
equal to (hence at most) the bound. -/
theorem C1_max_bound_not_inclusive :
    mkVersion? "1.0" = some ⟨"1.0", [(1, ""), (0, "")]⟩ ∧
    veq ⟨"1.0", [(1, ""), (0, "")]⟩ ⟨"1.0", [(1, ""), (0, "")]⟩ = true ∧
    maxMatch ⟨"1.0", [(1, ""), (0, "")]⟩ ⟨"1.0", [(1, ""), (0, "")]⟩ = false :=
  ⟨by decide, by decide, by decide⟩

/-- C1 amended: MinVersionMatcher L accepts v exactly when v is not below L
(inclusive lower bound), while MaxVersionMatcher U accepts v exactly when
v < U (exclusive upper bound); in particular a version equal to the lower
bound is accepted and a version equal to the upper bound is rejected. -/
theorem C1_version_bounds :
    (∀ lo v : Version, minMatch lo v = true ↔ vlt v lo = false) ∧
    (∀ hi v : Version, maxMatch hi v = true ↔ vlt v hi = true) ∧
    (∀ v : Version, minMatch v v = true) ∧
    (∀ v : Version, maxMatch v v = false) := by
  have hmin : ∀ lo v : Version, minMatch lo v = true ↔ vlt v lo = false := by
    intro lo v
    constructor
    · intro h
      rcases Bool.or_eq_true_iff.mp h with hlt | heq
      · exact vlt_asymm hlt
      · exact vlt_irrefl_comp ((veq_iff lo v).mp heq).symm
    · intro h
      rcases vlt_veq_connex lo v with heq | hlt | hgt
      · exact Bool.or_eq_true_iff.mpr (Or.inr heq)
      · exact Bool.or_eq_true_iff.mpr (Or.inl hlt)
      · rw [hgt] at h
        cases h
  refine ⟨hmin, fun hi v => Iff.rfl, ?_, ?_⟩
  · intro v
    exact (hmin v v).mpr (vlt_irrefl_comp rfl)
  · intro v
    exact vlt_irrefl_comp rfl

/-- C8: Version ordering is transitive, asymmetric and total with respect to
Version equality; equality holds exactly when the parsed component sequences
agree, and Version("1.2") == Version("01.02"). -/
theorem C8_total_order_and_eq :
    (∀ a b c : Version, vlt a b = true → vlt b c = true → vlt a c = true) ∧
    (∀ a b : Version, vlt a b = true → vlt b a = false) ∧
    (∀ a b : Version, veq a b = true ∨ vlt a b = true ∨ vlt b a = true) ∧
    (∀ a b : Version, veq a b = true ↔ a.components = b.components) ∧
    (mkVersion? "1.2" = some ⟨"1.2", [(1, ""), (2, "")]⟩ ∧
      mkVersion? "01.02" = some ⟨"01.02", [(1, ""), (2, "")]⟩ ∧
      veq ⟨"1.2", [(1, ""), (2, "")]⟩ ⟨"01.02", [(1, ""), (2, "")]⟩ = true) :=
  ⟨fun _ _ _ => vlt_trans, fun _ _ => vlt_asymm, vlt_veq_connex, veq_iff,
    by decide, by decide, by decide⟩

/-- C8 witness: the transitivity component applied at Version("0.1") <
Version("0.2") < Version("1.0"). -/
theorem C8_total_order_and_eq_witness :
    vlt ⟨"0.1", [(0, ""), (1, "")]⟩ ⟨"1.0", [(1, ""), (0, "")]⟩ = true :=
  C8_total_order_and_eq.1 ⟨"0.1", [(0, ""), (1, "")]⟩ ⟨"0.2", [(0, ""), (2, "")]⟩
    ⟨"1.0", [(1, ""), (0, "")]⟩ (by decide) (by decide)

/-- C7: parse-then-format round-trip — whenever Version(s) constructs, str of
the result is exactly the original string s. -/
theorem C7_roundtrip (s : String) (v : Version) (h : mkVersion? s = some v) :
    vstr v = s := by
  unfold mkVersion? at h
  rcases hm : parseSegs (splitChar '.' s.data) with _ | comps
  · rw [hm] at h
    cases h
  · rw [hm] at h
    cases h
    rfl

/-- C7 witness: the round-trip theorem applied at "1.2". -/
theorem C7_roundtrip_witness : vstr ⟨"1.2", [(1, ""), (2, "")]⟩ = "1.2" :=
  C7_roundtrip "1.2" ⟨"1.2", [(1, ""), (2, "")]⟩ (by decide)

/-- C10 counterexample: Version construction is not total over all strings —
on "a\nb" the int() call raises ValueError and the regex fullmatch returns
None (the '.' in the pattern cannot match the newline), so the .group call
raises AttributeError. -/
theorem C10_not_total_on_newline : mkVersion? "a\nb" = none := by decide

/-- C10 amended: Version construction never raises for strings without
newline characters; a non-integer segment with no leading digits and no
newline contributes integer component 0 with the whole segment as suffix,
so Version("1..2") == Version("1.0.2"). -/
theorem C10_total_without_newline :
    (∀ s : String, (∀ c ∈ s.data, c ≠ '\n') → (mkVersion? s).isSome = true) ∧
    (∀ seg : List Char, pyInt? ⟨seg⟩ = none → seg.takeWhile Char.isDigit = [] →
      (∀ c ∈ seg, c ≠ '\n') → parseSegment seg = some (0, ⟨seg⟩)) ∧
    (mkVersion? "1..2" = some ⟨"1..2", [(1, ""), (0, ""), (2, "")]⟩ ∧
      mkVersion? "1.0.2" = some ⟨"1.0.2", [(1, ""), (0, ""), (2, "")]⟩ ∧
      veq ⟨"1..2", [(1, ""), (0, ""), (2, "")]⟩
        ⟨"1.0.2", [(1, ""), (0, ""), (2, "")]⟩ = true) := by
  refine ⟨?_, ?_, by decide, by decide, by decide⟩
  · intro s hs
    unfold mkVersion?
    have hsegs : (parseSegs (splitChar '.' s.data)).isSome = true :=
      parseSegs_isSome _ (fun seg hseg =>
        parseSegment_isSome_of_no_newline
          (fun c hc => hs c (splitChar_subset '.' s.data seg hseg c hc)))
    rcases hm : parseSegs (splitChar '.' s.data) with _ | comps
    · rw [hm] at hsegs
      cases hsegs
    · rfl
  · intro seg hint htake hnl
    unfold parseSegment
    rw [hint]
    have hdrop : seg.dropWhile Char.isDigit = seg := by
      have := List.takeWhile_append_dropWhile (p := Char.isDigit) (l := seg)
      rw [htake] at this
      simpa using this
    have hcont : seg.contains '\n' = false :=
      contains_eq_false_of_not_mem (fun hmem => hnl '\n' hmem rfl)
    simp only [htake, hdrop, hcont, Bool.false_eq_true, if_false,
      List.foldl_nil, Nat.cast_zero]

/-- C10 witness: totality applied at the newline-free string "1.beta". -/
theorem C10_total_without_newline_witness : (mkVersion? "1.beta").isSome = true :=
  C10_total_without_newline.1 "1.beta" (by decide)

/-- C4: feeding the compactor ("0.1","alpha"), ("0.2","alpha"), ("0.3","alpha"),
("0.4","beta"), ("1.0","stable") and closing emits exactly the three sections
"0.1 ~ 0.3"/alpha, "0.4"/beta, "1.0"/stable, each separated by one blank
line. -/
theorem C4_compaction :
    cspRun [("0.1", "alpha"), ("0.2", "alpha"), ("0.3", "alpha"),
        ("0.4", "beta"), ("1.0", "stable")] =
      ("=====> 0.1 ~ 0.3 <=====\nalpha\n\n=====> 0.4 <=====\nbeta\n\n=====> 1.0 <=====\nstable\n",
        [("0.1 ~ 0.3", "alpha"), ("0.4", "beta"), ("1.0", "stable")]) := by
  decide

/-- C6: MultiVersionMatcher("1.x") accepts "1.0", "1.2.3" and "1.3-rc1" and
rejects "0.9.9" and "2.0"; in general this pattern accepts exactly the
strings of the form "1." followed by one or more characters, i.e. the x
wildcard stands for at least one character and the pattern must cover the
whole version string. -/
theorem C6_multi_matcher :
    multiMatch "1.x" "1.0" = true ∧ multiMatch "1.x" "1.2.3" = true ∧
    multiMatch "1.x" "1.3-rc1" = true ∧ multiMatch "1.x" "0.9.9" = false ∧
    multiMatch "1.x" "2.0" = false ∧
    (∀ s : String, multiMatch "1.x" s = true ↔
      ∃ c : Char, ∃ rest : List Char, s.data = '1' :: '.' :: c :: rest) := by
  have hm : ∀ s : String,
      multiMatch "1.x" s = (globMatch [.lit '1', .lit '.', .one, .many] s.data || false) :=
    fun s => rfl
  refine ⟨by decide, by decide, by decide, by decide, by decide, ?_⟩
  intro s
  rw [hm s, Bool.or_false]
  exact globMatch_1x s.data

/-! ### Environment lemmas -/

theorem envGet_cons_pos {p : String × String} {l : Env} {k d : String}
    (h : (p.1 == k) = true) : envGet (p :: l) k d = p.2 := by
  simp only [envGet, List.find?, h]

theorem envGet_cons_neg {p : String × String} {l : Env} {k d : String}
    (h : (p.1 == k) = false) : envGet (p :: l) k d = envGet l k d := by
  simp only [envGet, List.find?, h]

theorem envGet_map_update (k v d : String) :
    ∀ e : Env, e.any (fun p => p.1 == k) = true →
      envGet (e.map (fun p => if p.1 == k then (k, v) else p)) k d = v
  | [], h => by cases h
  | p :: rest, h => by
    by_cases hp : (p.1 == k) = true
    · rw [List.map_cons, if_pos hp, envGet_cons_pos (beq_self_eq_true k)]
    · have hp' : (p.1 == k) = false := eq_false_of_ne_true hp
      have hrest : rest.any (fun p => p.1 == k) = true := by
        simp only [List.any_cons, hp', Bool.false_or] at h
        exact h
      rw [List.map_cons, if_neg hp, envGet_cons_neg hp']
      exact envGet_map_update k v d rest hrest

theorem envGet_append_single (k v d : String) :
    ∀ e : Env, e.any (fun p => p.1 == k) = false →
      envGet (e ++ [(k, v)]) k d = v
  | [], _ => by
    rw [List.nil_append, envGet_cons_pos (beq_self_eq_true k)]
  | p :: rest, h => by
    simp only [List.any_cons, Bool.or_eq_false_iff] at h
    rw [List.cons_append, envGet_cons_neg h.1]
    exact envGet_append_single k v d rest h.2

theorem envGet_envSet_same (e : Env) (k v d : String) :
    envGet (envSet e k v) k d = v := by
  unfold envSet
  by_cases hany : e.any (fun p => p.1 == k) = true
  · rw [if_pos hany]
    exact envGet_map_update k v d e hany
  · rw [if_neg hany]
    exact envGet_append_single k v d e (eq_false_of_ne_true hany)

theorem envGet_map_update_ne (k v key d : String) (hne : key ≠ k) :
    ∀ e : Env,
      envGet (e.map (fun p => if p.1 == k then (k, v) else p)) key d = envGet e key d
  | [] => rfl
  | p :: rest => by
    by_cases hp : (p.1 == k) = true
    · have hkey : ((k : String) == key) = false := by
        simp only [beq_eq_false_iff_ne, ne_eq]
        exact fun q => hne q.symm
      have hpkey : (p.1 == key) = false := by
        simp only [beq_eq_false_iff_ne, ne_eq]
        intro q
        exact hne (q.symm.trans (beq_iff_eq.mp hp))
      rw [List.map_cons, if_pos hp, envGet_cons_neg hkey, envGet_cons_neg hpkey]
      exact envGet_map_update_ne k v key d hne rest
    · by_cases hpk : (p.1 == key) = true
      · rw [List.map_cons, if_neg hp, envGet_cons_pos hpk, envGet_cons_pos hpk]
      · have hpk' : (p.1 == key) = false := eq_false_of_ne_true hpk
        rw [List.map_cons, if_neg hp, envGet_cons_neg hpk', envGet_cons_neg hpk']
        exact envGet_map_update_ne k v key d hne rest

theorem envGet_append_single_ne (k v key d : String) (hne : key ≠ k) :
    ∀ e : Env, envGet (e ++ [(k, v)]) key d = envGet e key d
  | [] => by
    have hkey : ((k : String) == key) = false := by
      simp only [beq_eq_false_iff_ne, ne_eq]
      exact fun q => hne q.symm
    rw [List.nil_append, envGet_cons_neg hkey]
  | p :: rest => by
    by_cases hpk : (p.1 == key) = true
    · rw [List.cons_append, envGet_cons_pos hpk, envGet_cons_pos hpk]
    · have hpk' : (p.1 == key) = false := eq_false_of_ne_true hpk
      rw [List.cons_append, envGet_cons_neg hpk', envGet_cons_neg hpk']
      exact envGet_append_single_ne k v key d hne rest

theorem envGet_envSet_ne (e : Env) (k v key d : String) (hne : key ≠ k) :
    envGet (envSet e k v) key d = envGet e key d := by
  unfold envSet
  by_cases hany : e.any (fun p => p.1 == k) = true
  · rw [if_pos hany]
    exact envGet_map_update_ne k v key d hne e
  · rw [if_neg hany]
    exact envGet_append_single_ne k v key d hne e

/-- C9: per-run environment isolation. Over any sequence of per-interpreter
runs the process-global environment is left exactly as it started, and every
run's subprocess environment is computed from that original global
environment alone, so no run observes the PATH extension made for another
run; the extension rewrites exactly the PATH entry of the per-invocation
copy and leaves every other key unchanged. -/
theorem C9_env_isolation :
    (∀ (g : Env) (pys : List PythonInterpreter),
      (runSeqEnvs g pys).2 = g ∧
      (runSeqEnvs g pys).1 = pys.map (fun py => subprocEnv g (some py))) ∧
    (∀ (g : Env) (py : PythonInterpreter) (k d : String), k ≠ "PATH" →
      envGet (subprocEnv g (some py)) k d = envGet g k d) ∧
    (∀ (g : Env) (py : PythonInterpreter),
      envGet (subprocEnv g (some py)) "PATH" "" =
        py.binDir ++ ":" ++ envGet g "PATH" "") := by
  refine ⟨?_, ?_, ?_⟩
  · intro g pys
    induction pys with
    | nil => exact ⟨rfl, rfl⟩
    | cons py rest ih =>
      refine ⟨?_, ?_⟩
      · simp only [runSeqEnvs, runEnvEffect]
        exact ih.1
      · simp only [runSeqEnvs, runEnvEffect, List.map_cons]
        exact congrArg _ ih.2
  · intro g py k d hk
    exact envGet_envSet_ne g "PATH" _ k d hk
  · intro g py
    exact envGet_envSet_same g "PATH" _ ""

/-- C9 witness: a non-PATH key is unaffected by the per-run PATH extension. -/
theorem C9_env_isolation_witness :
    envGet
      (subprocEnv [("PATH", "/usr/bin"), ("HOME", "/root")]
        (some ⟨"/opt/all-python/Python-1.0/bin/python",
          "/opt/all-python/Python-1.0/bin", ⟨"1.0", [(1, ""), (0, "")]⟩⟩))
      "HOME" "x" =
    envGet [("PATH", "/usr/bin"), ("HOME", "/root")] "HOME" "x" :=
  C9_env_isolation.2.1 [("PATH", "/usr/bin"), ("HOME", "/root")]
    ⟨"/opt/all-python/Python-1.0/bin/python", "/opt/all-python/Python-1.0/bin",
      ⟨"1.0", [(1, ""), (0, "")]⟩⟩ "HOME" "x" (by decide)

/-! ### Main-flow lemmas -/

theorem findMatching?_null (verA : VersionArg) :
    ∀ l : List PythonInterpreter,
      findMatching? .null .null verA l =
        some (l.filter (fun py => versionArgMatch verA py.version))
  | [] => rfl
  | py :: rest => by
    have ih := findMatching?_null verA rest
    by_cases hm : versionArgMatch verA py.version = true
    · simp [findMatching?, combinedMatch?, boundMatch?, ih, List.filter_cons, hm]
    · simp [findMatching?, combinedMatch?, boundMatch?, ih, List.filter_cons,
        eq_false_of_ne_true hm]

theorem runLoop_sections (oracle : CmdKind → Option PythonInterpreter → Outcome)
    (ck : CmdKind) (cmdStr : String) :
    ∀ (l : List PythonInterpreter) (st : CSPState),
      (runLoop oracle ck cmdStr l st).2.2 =
        l.map (fun py => (vstr py.version, sectionTextOf cmdStr (oracle ck (some py))))
  | [], _ => rfl
  | py :: rest, st => by
    simp only [runLoop]
    rcases hsp : cspPrint st (vstr py.version)
        (sectionTextOf cmdStr (oracle ck (some py))) with ⟨out1, em, st1⟩
    rcases hrl : runLoop oracle ck cmdStr rest st1 with ⟨outR, st2, secs⟩
    simp only [List.map_cons, List.cons.injEq, true_and]
    have ih := runLoop_sections oracle ck cmdStr rest st1
    rw [hrl] at ih
    exact ih

theorem mainTail_spec (args : Args) (interps : List PythonInterpreter)
    (oracle : CmdKind → Option PythonInterpreter → Outcome)
    (c bout : String) (br : Bool)
    (h1 : args.execCmd = some c) (hmn : args.minArg = .null)
    (hmx : args.maxArg = .null) :
    (mainTail args interps oracle bout br).ranInterps =
      sortByVersion
        (interps.filter (fun py => versionArgMatch args.verArg py.version)) ∧
    (mainTail args interps oracle bout br).sections =
      (sortByVersion
        (interps.filter (fun py => versionArgMatch args.verArg py.version))).map
        (fun py => (vstr py.version, sectionTextOf c (oracle (.shell c) (some py)))) := by
  unfold mainTail
  rcases hsp : spPrint ⟨false⟩ true "before" bout with ⟨sec1, sp1⟩
  simp only [hmn, hmx, findMatching?_null args.verArg interps, h1]
  rcases hrl : runLoop oracle (.shell c) c
      (sortByVersion
        (interps.filter (fun py => versionArgMatch args.verArg py.version)))
      cspInit with ⟨loopOut, stEnd, secs⟩
  rcases hcl : cspClose stEnd with ⟨closeOut, em, stc⟩
  have hsecs : secs =
      (sortByVersion
        (interps.filter (fun py => versionArgMatch args.verArg py.version))).map
        (fun py => (vstr py.version, sectionTextOf c (oracle (.shell c) (some py)))) := by
    have ih := runLoop_sections oracle (.shell c) c
      (sortByVersion
        (interps.filter (fun py => versionArgMatch args.verArg py.version)))
      cspInit
    rw [hrl] at ih
    exact ih
  refine ⟨?_, ?_⟩
  · split <;> (try split) <;> rfl
  · split <;> (try split) <;> exact hsecs

/-! ### The main-flow claims -/

/-- C5: supplying both --exec and positional interpreter arguments, or
supplying neither, prints a message with the ERROR: prefix to standard
error and exits with status 1, with no hook and no per-interpreter
subprocess run. -/
theorem C5_config_errors :
    (∀ (args : Args) (interps : List PythonInterpreter)
      (oracle : CmdKind → Option PythonInterpreter → Outcome),
      args.execCmd.isSome = true → args.pythonArgs ≠ [] →
      mainModel args interps oracle =
        ⟨"", "ERROR: --exec and python_args are exclusive\n", .exited 1,
          false, false, [], []⟩) ∧
    (∀ (args : Args) (interps : List PythonInterpreter)
      (oracle : CmdKind → Option PythonInterpreter → Outcome),
      args.execCmd = none → args.pythonArgs = [] →
      mainModel args interps oracle =
        ⟨"", "ERROR: must specify one argument of --exec or python_args\n",
          .exited 1, false, false, [], []⟩) := by
  constructor
  · intro args interps oracle h1 h2
    have hne : args.pythonArgs.isEmpty = false := by
      cases hpa : args.pythonArgs with
      | nil => exact absurd hpa h2
      | cons a l => rfl
    unfold mainModel
    rw [h1, hne]
    rfl
  · intro args interps oracle h1 h2
    unfold mainModel
    rw [h1, h2]
    rfl

/-- C5 witness: both configuration errors at concrete command lines. -/
theorem C5_config_errors_witness :
    mainModel ⟨some "echo", none, none, .null, .null, .null, ["x"]⟩ []
        (fun _ _ => Outcome.ok "") =
      ⟨"", "ERROR: --exec and python_args are exclusive\n", .exited 1,
        false, false, [], []⟩ ∧
    mainModel ⟨none, none, none, .null, .null, .null, []⟩ []
        (fun _ _ => Outcome.ok "") =
      ⟨"", "ERROR: must specify one argument of --exec or python_args\n",
        .exited 1, false, false, [], []⟩ :=
  ⟨C5_config_errors.1 ⟨some "echo", none, none, .null, .null, .null, ["x"]⟩ []
      (fun _ _ => Outcome.ok "") rfl (by decide),
    C5_config_errors.2 ⟨none, none, none, .null, .null, .null, []⟩ []
      (fun _ _ => Outcome.ok "") rfl rfl⟩

/-- C2 (code-bug evidence): a before hook whose subprocess exits non-zero
aborts the run — nothing reaches stdout, no per-interpreter command and no
after hook runs — and the CalledProcessError text plus the captured output
are printed to standard error; but the except-branch of main falls through
without a return value, so main returns None and exit(main()) ends the
process with status 0 rather than the non-zero status the claim states. -/
theorem C2_before_hook_failure :
    ∀ (args : Args) (interps : List PythonInterpreter)
      (oracle : CmdKind → Option PythonInterpreter → Outcome)
      (c out : String) (code : Nat),
      args.execCmd.isSome = true → args.pythonArgs = [] →
      args.beforeCmd = some c →
      oracle (.shell c) none = .err code out →
      mainModel args interps oracle =
        ⟨"", hookFailStderr c code out, .exited 0, true, false, [], []⟩ := by
  intro args interps oracle c out code h1 h2 h3 h4
  unfold mainModel
  rw [h2, h1, h3]
  simp only [h4]
  rfl

/-- C2 witness: the before hook false exiting 3 with captured output. -/
theorem C2_before_hook_failure_witness :
    mainModel ⟨some "echo hi", some "false", none, .null, .null, .null, []⟩ []
        (fun ck py =>
          match ck, py with
          | .shell "false", none => .err 3 "NG\n"
          | _, _ => .ok "ok\n") =
      ⟨"", hookFailStderr "false" 3 "NG\n", .exited 0, true, false, [], []⟩ :=
  C2_before_hook_failure ⟨some "echo hi", some "false", none, .null, .null, .null, []⟩
    [] (fun ck py =>
      match ck, py with
      | .shell "false", none => .err 3 "NG\n"
      | _, _ => .ok "ok\n") "false" "NG\n" 3 rfl rfl rfl (by decide)

/-- C3: a per-interpreter command exiting non-zero does not abort the run —
with --exec and a successful (or absent) before hook, every interpreter of
the sorted filtered sequence is run whatever the invocation outcomes, the
compactor receives exactly one (label, text) section per interpreter, and a
failing interpreter's section text is the newline-rstripped captured output
followed by the exit status and the literal command string. -/
theorem C3_per_interpreter_failure_does_not_abort :
    ∀ (args : Args) (interps : List PythonInterpreter)
      (oracle : CmdKind → Option PythonInterpreter → Outcome) (c bout : String),
      args.execCmd = some c → args.pythonArgs = [] →
      args.minArg = .null → args.maxArg = .null →
      (match args.beforeCmd with
        | none => Outcome.ok ""
        | some bc => oracle (.shell bc) none) = Outcome.ok bout →
      (mainModel args interps oracle).ranInterps =
        sortByVersion
          (interps.filter (fun py => versionArgMatch args.verArg py.version)) ∧
      (mainModel args interps oracle).sections =
        (sortByVersion
          (interps.filter (fun py => versionArgMatch args.verArg py.version))).map
          (fun py => (vstr py.version, sectionTextOf c (oracle (.shell c) (some py)))) ∧
      (∀ (py : PythonInterpreter) (code : Nat) (out : String),
        oracle (.shell c) (some py) = .err code out →
        sectionTextOf c (oracle (.shell c) (some py)) =
          rstripNL out ++ "\n\n" ++ "Command returned non-zero exit status " ++
            toString code ++ "\n" ++ "Command: " ++ c) := by
  intro args interps oracle c bout h1 h2 hmn hmx hB
  have hmain :
      (mainModel args interps oracle).ranInterps =
        sortByVersion
          (interps.filter (fun py => versionArgMatch args.verArg py.version)) ∧
      (mainModel args interps oracle).sections =
        (sortByVersion
          (interps.filter (fun py => versionArgMatch args.verArg py.version))).map
          (fun py => (vstr py.version, sectionTextOf c (oracle (.shell c) (some py)))) := by
    rcases hbc : args.beforeCmd with _ | bc
    · unfold mainModel
      rw [h2, h1, hbc]
      exact mainTail_spec args interps oracle c "" false h1 hmn hmx
    · rw [hbc] at hB
      simp only [] at hB
      unfold mainModel
      rw [h2, h1, hbc]
      simp only [hB]
      exact mainTail_spec args interps oracle c bout true h1 hmn hmx
  refine ⟨hmain.1, hmain.2, ?_⟩
  intro py code out h
  rw [h]
  rfl

/-- The interpreters and oracle used to witness the per-interpreter failure
claim: Python 3.5 (whose command exits 2 with output "boom") and 3.6 (whose
command succeeds), discovered in unsorted order. -/
def c3Interp35 : PythonInterpreter :=
  ⟨"/opt/all-python/Python-3.5/bin/python", "/opt/all-python/Python-3.5/bin",
    ⟨"3.5", [(3, ""), (5, "")]⟩⟩

def c3Interp36 : PythonInterpreter :=
  ⟨"/opt/all-python/Python-3.6/bin/python", "/opt/all-python/Python-3.6/bin",
    ⟨"3.6", [(3, ""), (6, "")]⟩⟩

def c3Oracle : CmdKind → Option PythonInterpreter → Outcome :=
  fun _ py =>
    match py with
    | some p => if p.version.version == "3.5" then .err 2 "boom\n" else .ok "fine\n"
    | none => .ok ""

/-- C3 witness: with the 3.5 run failing, both interpreters still run in
sorted order and the failing section text carries the output, exit status
and command. -/
theorem C3_per_interpreter_failure_witness :
    (mainModel ⟨some "echo hi", none, none, .null, .null, .null, []⟩
        [c3Interp36, c3Interp35] c3Oracle).ranInterps = [c3Interp35, c3Interp36] ∧
    (mainModel ⟨some "echo hi", none, none, .null, .null, .null, []⟩
        [c3Interp36, c3Interp35] c3Oracle).sections =
      [("3.5", "boom\n\nCommand returned non-zero exit status 2\nCommand: echo hi"),
        ("3.6", "fine\n")] := by
  have h := C3_per_interpreter_failure_does_not_abort
    ⟨some "echo hi", none, none, .null, .null, .null, []⟩ [c3Interp36, c3Interp35]
    c3Oracle "echo hi" "" rfl rfl rfl rfl rfl
  exact ⟨h.1.trans (by decide), h.2.1.trans (by decide)⟩

end AllPython
